import Mathlib

/-!
Verification development for the visss analytics dashboard.

The definitions below are shallow embeddings of the TypeScript source:

* `FilterOptions` / `ActiveItem` — the shared filter store (`FilterContext`).
* click/hover handler embeddings — the event handlers of `HiringPulseChart`,
  `JobPostingsTimeLine`, `SalaryJobTitleRidgeline` and
  `SalaryLocationIndustryBarChart`, restricted to their effect on the shared
  store and on the local visual state they touch.
* aggregation embeddings — `getAggregatedData` of the two timeline-style
  charts, and the statistics/density derivations of the ridgeline chart.

JavaScript numbers are modelled as `ℚ` (the values manipulated here are
exact decimals), `Math.round` as `jsRound`, the falsy `x || y` idiom on
numbers as `jsOr`, and JS string keys as Lean `String`.
-/

/-- The shared filter selection state (`FilterOptions` in `FilterContext`):
four per-dimension lists of selected string labels. -/
structure FilterOptions where
  experienceLevels : List String
  locations : List String
  industries : List String
  employmentTypes : List String
deriving DecidableEq, Repr

/-- The discriminants of the shared active-item pointer
(`'industry' | 'location' | 'jobTitle' | 'experienceLevel'`). -/
inductive ActiveType where
  | industry
  | location
  | jobTitle
  | experienceLevel
deriving DecidableEq, Repr

/-- The shared `activeItem` of `FilterContext`: a nullable discriminant
(`type`) and a nullable string payload (`value`); `none` models JS `null`. -/
structure ActiveItem where
  type : Option ActiveType
  value : Option String
deriving DecidableEq, Repr

/-- `HiringPulseChart` heatmap-cell click handler, filter part
(part_001 lines 168-182): spreads the previous snapshot, then REPLACES
`experienceLevels` by the singleton `[level]` when the level is absent and
by `[]` when it is present. The same logic appears in the bubble and trend
click handlers of the same chart. -/
def heatmapClickFilters (filters : FilterOptions) (level : String) : FilterOptions :=
  if ¬ (level ∈ filters.experienceLevels) then
    { filters with experienceLevels := [level] }
  else
    { filters with experienceLevels := [] }

/-- `JobPostingsTimeLine` line click handler, filter part (part_001 lines
1294-1313): spreads the previous snapshot and toggles `level` in
`experienceLevels` (filter it out if present, append if absent). -/
def lineClickFilters (filters : FilterOptions) (level : String) : FilterOptions :=
  if level ∈ filters.experienceLevels then
    { filters with experienceLevels := filters.experienceLevels.filter (fun l => l ≠ level) }
  else
    { filters with experienceLevels := filters.experienceLevels ++ [level] }

/-- `JobPostingsTimeLine` data-point click handler, filter part (part_001
lines 1392-1408): identical toggle of `experienceLevels`. -/
def pointClickFilters (filters : FilterOptions) (level : String) : FilterOptions :=
  if level ∈ filters.experienceLevels then
    { filters with experienceLevels := filters.experienceLevels.filter (fun e => e ≠ level) }
  else
    { filters with experienceLevels := filters.experienceLevels ++ [level] }

/-- `JobPostingsTimeLine` legend click handler, filter part (part_001 lines
1464-1481): identical toggle of `experienceLevels`. -/
def legendClickFilters (filters : FilterOptions) (level : String) : FilterOptions :=
  if level ∈ filters.experienceLevels then
    { filters with experienceLevels := filters.experienceLevels.filter (fun e => e ≠ level) }
  else
    { filters with experienceLevels := filters.experienceLevels ++ [level] }

/-- `SalaryJobTitleRidgeline` overlay click handler, filter part
(SalaryJobTitleRidgeline.tsx lines 516-530): spreads the previous snapshot
and toggles the clicked job title in the `industries` field. -/
def ridgelineClickFilters (filters : FilterOptions) (jobTitle : String) : FilterOptions :=
  if jobTitle ∈ filters.industries then
    { filters with industries := filters.industries.filter (fun t => t ≠ jobTitle) }
  else
    { filters with industries := filters.industries ++ [jobTitle] }

/-- `SalaryLocationIndustryBarChart.toggleIndustry`, filter part
(SalaryLocationIndustryBarChart.tsx lines 291-307): spreads the previous
snapshot and toggles the industry in the `industries` field. The legend and
badge click handlers of the same chart run the same update. -/
def toggleIndustryFilters (filters : FilterOptions) (industry : String) : FilterOptions :=
  if industry ∈ filters.industries then
    { filters with industries := filters.industries.filter (fun i => i ≠ industry) }
  else
    { filters with industries := filters.industries ++ [industry] }

/-- The common membership-toggle pattern on a list of labels used by the
toggle-style click handlers above. -/
def toggleLabel (l : List String) (v : String) : List String :=
  if v ∈ l then l.filter (fun e => e ≠ v) else l ++ [v]

/-- Local stroke styling of a heatmap cell (the attributes the hover
handlers touch). -/
structure CellStyle where
  stroke : String
  strokeWidth : ℚ
deriving DecidableEq, Repr

/-- State visible to the `HiringPulseChart` heatmap cell hover handlers:
the shared active item plus the cell's local stroke/tooltip state. -/
structure HeatmapCellState where
  activeItem : ActiveItem
  style : CellStyle
  tooltipVisible : Bool
deriving DecidableEq, Repr

/-- `HiringPulseChart` heatmap-cell mouseover handler (part_001 lines
141-158): highlights the cell (white stroke, width 2) and shows the
tooltip. The handler contains no `setActiveItem` call, so the shared
active item is left untouched. -/
def heatmapCellMouseover (st : HeatmapCellState) : HeatmapCellState :=
  { st with style := ⟨"#ffffff", 2⟩, tooltipVisible := true }

/-- `HiringPulseChart` heatmap-cell mouseout handler (part_001 lines
159-167): restores the default stroke and hides the tooltip; again no
`setActiveItem` call. -/
def heatmapCellMouseout (st : HeatmapCellState) : HeatmapCellState :=
  { st with style := ⟨"#1a2030", 1⟩, tooltipVisible := false }

/-- Local styling of a timeline data point (the attributes the hover
handlers touch). -/
structure PointStyle where
  r : ℚ
  stroke : String
deriving DecidableEq, Repr

/-- State visible to the `JobPostingsTimeLine` data-point hover handlers:
the shared active item, the point's persisted `selected` class, and its
local style/tooltip state. -/
structure DataPointState where
  activeItem : ActiveItem
  selected : Bool
  style : PointStyle
  tooltipVisible : Bool
deriving DecidableEq, Repr

/-- `JobPostingsTimeLine` data-point mouseover handler (part_001 lines
1347-1361): sets the shared active item to the point's experience level and
applies local emphasis (radius 6, white stroke). -/
def pointMouseover (level : String) (st : DataPointState) : DataPointState :=
  { st with activeItem := ⟨some ActiveType.experienceLevel, some level⟩,
            style := ⟨6, "#fff"⟩,
            tooltipVisible := true }

/-- `JobPostingsTimeLine` data-point mouseout handler (part_001 lines
1368-1380): resets the shared active item to null only when the point does
not carry the persisted `selected` class, and reverts the local emphasis. -/
def pointMouseout (st : DataPointState) : DataPointState :=
  let active := if ¬ st.selected then (⟨none, none⟩ : ActiveItem) else st.activeItem
  { st with activeItem := active,
            style := ⟨4, "#2d3748"⟩,
            tooltipVisible := false }

/-- JS `Math.round`: round half toward positive infinity. -/
def jsRound (q : ℚ) : ℤ := ⌊q + 1/2⌋

/-- The JS `a || b` fallback idiom on numbers: `b` when `a` is falsy (`0`). -/
def jsOr (a b : ℚ) : ℚ := if a = 0 then b else a

/-- Association-list lookup keyed by strings: models JS object indexing
`obj[k]`, with `none` for `undefined`. -/
def lookupKey {α : Type} : List (String × α) → String → Option α
  | [], _ => none
  | (k, v) :: rest, b => if k = b then some v else lookupKey rest b

/-- The `TimeLineData` payload consumed by `HiringPulseChart` and
`JobPostingsTimeLine`: experience levels, time-point labels, and the
per-level per-time-point counts `data[level][timePoint]`. -/
structure TimeLineData where
  experienceLevels : List String
  timePoints : List String
  data : List (String × List (String × ℚ))
deriving DecidableEq, Repr

/-- `data.data[level] || {}`: the count entries recorded for a level. -/
def entriesOf (d : TimeLineData) (level : String) : List (String × ℚ) :=
  (lookupKey d.data level).getD []

/-- The industry list hard-coded in `HiringPulseChart.getAggregatedData`. -/
def hiringIndustries : List String :=
  ["Technology", "Healthcare", "Finance", "Education", "Retail"]

/-- Result shape of `HiringPulseChart.getAggregatedData`. -/
structure HiringAggregated where
  byExperience : List (String × ℚ)
  byIndustry : List (String × ℤ)
  byExperienceAndIndustry : List (String × List (String × ℤ))
  timeSeries : List (String × List (String × ℚ))
  experienceLevels : List String
  industries : List String
  timePoints : List String
deriving DecidableEq, Repr

/-- `HiringPulseChart.getAggregatedData` (part_001 lines 24-72). The
`Math.random()` call in the industry-distribution loop is modelled by an
explicit stream `rand : ℕ → ℚ` of samples in `[0, 1)`, consumed in draw
order: industries are the outer loop, so the weight for industry index `i`
and experience-level index `j` is draw number `i * numLevels + j`, scaled
to `[1/2, 1)` as in the source (`Math.random() * 0.5 + 0.5`). Returns
`none` when `!data`. -/
def getAggregatedDataHiring (data : Option TimeLineData) (rand : ℕ → ℚ) :
    Option HiringAggregated :=
  match data with
  | none => none
  | some d =>
    let expLevelTotal : String → ℚ := fun level =>
      ((entriesOf d level).map Prod.snd).sum
    let numLevels := d.experienceLevels.length
    let industryWeight : ℕ → ℕ → ℚ := fun i j =>
      rand (i * numLevels + j) * (1/2) + 1/2
    let industryCount : ℕ → ℕ → String → ℤ := fun i j level =>
      jsRound (expLevelTotal level * industryWeight i j / (hiringIndustries.length : ℚ))
    some
      { byExperience := d.experienceLevels.map (fun level => (level, expLevelTotal level))
        byIndustry := hiringIndustries.enum.map (fun p =>
          (p.2, (d.experienceLevels.enum.map (fun q => industryCount p.1 q.1 q.2)).sum))
        byExperienceAndIndustry := d.experienceLevels.enum.map (fun q =>
          (q.2, hiringIndustries.enum.map (fun p => (p.2, industryCount p.1 q.1 q.2))))
        timeSeries := d.experienceLevels.map (fun level => (level, entriesOf d level))
        experienceLevels := d.experienceLevels
        industries := hiringIndustries
        timePoints := d.timePoints }

/-- Splitting a character list at a separator character (models
`String.prototype.split` for the single-character separators used here). -/
def splitOnChar (c : Char) : List Char → List (List Char)
  | [] => [[]]
  | x :: xs =>
    let rest := splitOnChar c xs
    if x = c then [] :: rest
    else
      match rest with
      | [] => [[x]]
      | r :: rs => (x :: r) :: rs

/-- Digit-string parsing: `some n` for a nonempty all-digit string, `none`
otherwise (the `NaN` outcomes of JS `Number`/`parseInt` on the inputs that
occur here). -/
def parseDigits (cs : List Char) : Option ℕ :=
  if cs ≠ [] ∧ cs.all Char.isDigit then
    some (cs.foldl (fun acc c => acc * 10 + (c.toNat - 48)) 0)
  else none

/-- `JobPostingsTimeLine.getQuarter` (part_001 lines 1057-1061):
`parseISO(dateStr)` reads the year and 1-based month from the `YYYY-MM-DD`
label (0-based `getMonth()` is month - 1), and the label is
`Q{floor(month0 / 3) + 1} {year}`. -/
def getQuarter (dateStr : String) : String :=
  let parts := splitOnChar '-' dateStr.data
  let year := (parseDigits (parts.getD 0 [])).getD 0
  let month0 := (parseDigits (parts.getD 1 [])).getD 1 - 1
  let quarter := month0 / 3 + 1
  "Q" ++ toString quarter ++ " " ++ toString year

/-- One step of the week/quarter grouping loop of
`JobPostingsTimeLine.getAggregatedData`: `groups[k]` is created as
`{sum: 0, count: 0}` on first touch, then `sum += c; count += 1`. -/
def addToGroup : List (String × ℚ × ℕ) → String → ℚ → List (String × ℚ × ℕ)
  | [], k, c => [(k, c, 1)]
  | (k', s, n) :: rest, k, c =>
    if k' = k then (k', s + c, n + 1) :: rest
    else (k', s, n) :: addToGroup rest k c

/-- The `data.timePoints.forEach` accumulation over an accumulator. -/
def buildGroupsGo (key : String → String) (counts : String → ℚ) :
    List (String × ℚ × ℕ) → List String → List (String × ℚ × ℕ)
  | acc, [] => acc
  | acc, t :: ts => buildGroupsGo key counts (addToGroup acc (key t) (counts t)) ts

/-- The `{sum, count}` groups built from the time points, keyed by the
bucketing function (`getWeekOfYear` or `getQuarter`). -/
def buildGroups (key : String → String) (counts : String → ℚ)
    (ts : List String) : List (String × ℚ × ℕ) :=
  buildGroupsGo key counts [] ts

/-- `Object.entries(groups).forEach(([k, stats]) => out[k] =
Math.round(stats.sum / stats.count))`: the finished buckets. -/
def aggregateBuckets (key : String → String) (counts : String → ℚ)
    (ts : List String) : List (String × ℤ) :=
  (buildGroups key counts ts).map (fun g => (g.1, jsRound (g.2.1 / (g.2.2 : ℚ))))

/-- The quarterly branch of `JobPostingsTimeLine.getAggregatedData`
(part_001 lines 982-1007) for one experience level: counts are
`data.data[expLevel][date] || 0`, grouped by `getQuarter`. -/
def quarterlyAggregate (d : TimeLineData) (level : String) : List (String × ℤ) :=
  aggregateBuckets getQuarter
    (fun t => (lookupKey (entriesOf d level) t).getD 0) d.timePoints

/-- The weekly branch (part_001 lines 944-981) for one experience level:
the same grouping and rounded averaging, keyed by `getWeekOfYear` and with
the bucket keys relabelled by `format(getDateOfWeek(parseInt(week)),
"MMM dd")`. The date arithmetic of those two helpers is passed in as
`weekOf` and `weekLabel`. -/
def weeklyAggregate (weekOf : String → String) (weekLabel : String → String)
    (d : TimeLineData) (level : String) : List (String × ℤ) :=
  (buildGroups weekOf
      (fun t => (lookupKey (entriesOf d level) t).getD 0) d.timePoints).map
    (fun g => (weekLabel g.1, jsRound (g.2.1 / (g.2.2 : ℚ))))

/-- Merging a bucket's `{sum, count}` (if any) with further filtered
contributions; the shape of the `buildGroupsGo` loop invariant. -/
def combineGroup (o : Option (ℚ × ℕ)) (s : ℚ) (n : ℕ) : Option (ℚ × ℕ) :=
  match o with
  | some p => some (p.1 + s, p.2 + n)
  | none => if n = 0 then none else some (s, n)

/-- `d3.quantileSorted(values, p)` over exact rationals, on an already
ascending-sorted list: for `0 < p < 1` and at least two values the index is
`i = (n - 1) * p` and the result interpolates linearly between the values
at positions `⌊i⌋` and `⌊i⌋ + 1`. `d3.median` is the quantile at `p = 1/2`,
and `d3.quantile` sorts before delegating here (the ridgeline passes
already-sorted input). The `undefined` result on an empty list is
represented by `0`; callers filter empty ranges out beforehand. -/
def quantileSorted (values : List ℚ) (p : ℚ) : ℚ :=
  if values.length = 0 then 0
  else if p ≤ 0 ∨ values.length < 2 then values.getD 0 0
  else if 1 ≤ p then values.getD (values.length - 1) 0
  else
    let i : ℚ := ((values.length : ℚ) - 1) * p
    let i0 : ℕ := ⌊i⌋.toNat
    values.getD i0 0 + (values.getD (i0 + 1) 0 - values.getD i0 0) * (i - (i0 : ℚ))

/-- Per-job-title statistics computed by `jobTitlesByMedian` in
`SalaryJobTitleRidgeline`. -/
structure JobTitleStats where
  median : ℚ
  min : ℚ
  max : ℚ
  q1 : ℚ
  q3 : ℚ
  rangeSize : ℚ
  count : ℕ
  values : List ℚ
deriving DecidableEq, Repr

/-- The statistics derivation of `SalaryJobTitleRidgeline` (lines 83-126):
values sorted ascending (`.sort((a, b) => a - b)` modelled by
`insertionSort`), `d3.median` and `d3.quantile` via `quantileSorted`, the
JS `|| 0` / `|| min` / `|| max` fallbacks via `jsOr`, the single-value
±10% synthesis, and the midpoint quartile policy for at most 2
observations. -/
def jobTitleStats (values : List ℚ) : JobTitleStats :=
  let sortedValues := values.insertionSort (· ≤ ·)
  let median := jsOr (quantileSorted sortedValues (1/2))
                  (jsOr (sortedValues.getD 0 0) 0)
  let min0 := jsOr (sortedValues.getD 0 0) 0
  let max0 := jsOr (sortedValues.getD (sortedValues.length - 1) 0) 0
  let minV := if sortedValues.length = 1 then median * (9/10) else min0
  let maxV := if sortedValues.length = 1 then median * (11/10) else max0
  let q1 := if 2 < sortedValues.length
            then jsOr (quantileSorted sortedValues (1/4)) minV
            else minV + (median - minV) / 2
  let q3 := if 2 < sortedValues.length
            then jsOr (quantileSorted sortedValues (3/4)) maxV
            else median + (maxV - median) / 2
  { median := median, min := minV, max := maxV, q1 := q1, q3 := q3,
    rangeSize := maxV - minV, count := values.length, values := values }

/-- The exact median as the spec phrases it: sort ascending; the middle
element for odd length, the mean of the two middle elements for even
length. Stated from the spec's words, to be compared with the median the
code derives. -/
def medianSpec (values : List ℚ) : ℚ :=
  let s := values.insertionSort (· ≤ ·)
  if s.length % 2 = 1 then s.getD (s.length / 2) 0
  else (s.getD (s.length / 2 - 1) 0 + s.getD (s.length / 2) 0) / 2

/-- `d3.mean` over exact rationals; the `undefined` result on an empty list
is represented by `0` (the call site applies `|| 0` anyway). -/
def jsMean (l : List ℚ) : ℚ := if l.length = 0 then 0 else l.sum / (l.length : ℚ)

/-- The Epanechnikov kernel of the density branch (lines 326-330):
`Math.abs(x /= bandwidth) <= 1 ? 0.75 * (1 - x * x) / bandwidth : 0`. -/
def epanechnikov (bandwidth : ℚ) : ℚ → ℚ := fun x =>
  let xb := x / bandwidth
  if |xb| ≤ 1 then (3/4) * (1 - xb * xb) / bandwidth else 0

/-- `d3.range(start, stop, step)`: `max(0, ceil((stop - start) / step))`
points `start + i * step`. (JS produces `NaN | 0 = 0` for a zero step over
an empty span; rational division by zero likewise yields `0` here.) -/
def d3range (start stop step : ℚ) : List ℚ :=
  let n : ℤ := max 0 ⌈(stop - start) / step⌉
  (List.range n.toNat).map (fun (i : ℕ) => start + (i : ℚ) * step)

/-- The `kde` helper of the density branch (lines 321-323): each threshold
paired with the mean kernel value over the data, with the `|| 0`
fallback. -/
def kde (kernel : ℚ → ℚ) (thresholds : List ℚ) (data : List ℚ) : List (ℚ × ℚ) :=
  thresholds.map (fun t => (t, jsOr (jsMean (data.map (fun d => kernel (t - d)))) 0))

/-- The density branch of `SalaryJobTitleRidgeline` (lines 333-359) for one
job title: categories with at most one observation are skipped (`none`);
otherwise the Epanechnikov KDE with bandwidth `(max - min) / 5`, sampled on
`d3.range(min, max, (max - min) / 100)` over the stored raw values. -/
def densityCurve (values : List ℚ) : Option (List (ℚ × ℚ)) :=
  let d := jobTitleStats values
  if values.length ≤ 1 then none
  else
    let bandwidth := (d.max - d.min) / 5
    let thresholds := d3range d.min d.max ((d.max - d.min) / 100)
    some (kde (epanechnikov bandwidth) thresholds d.values)

/-- Render outcome of a chart component's early-return chain. -/
inductive RenderState where
  | skeleton
  | noData
  | chart
deriving DecidableEq, Repr

/-- The `GroupedBarData` payload as seen through JS truthiness: each array
field can be `undefined` (`none`); a present-but-empty array is truthy. -/
structure GroupedBarDataShape where
  locations : Option (List String)
  industries : Option (List String)
deriving DecidableEq, Repr

/-- The early returns of `SalaryLocationIndustryBarChart` (lines 319-352):
the skeleton while `isLoading`, the `No Data Available` panel when
`!data || !data.industries`, otherwise the main chart. JS truthiness means
an empty `industries` array does not trigger the guard. -/
def barChartRender (data : Option GroupedBarDataShape) (isLoading : Bool) :
    RenderState :=
  if isLoading then .skeleton
  else
    match data with
    | none => .noData
    | some d => if d.industries = none then .noData else .chart

/-- The `TimeLineData` payload through JS truthiness, for the guards of the
two timeline-style charts. -/
structure TimeLineDataShape where
  experienceLevels : Option (List String)
  timePoints : Option (List String)
deriving DecidableEq, Repr

/-- The early returns of `HiringPulseChart` (part_001 lines 767-800; the
guard of `JobPostingsTimeLine`, lines 1665-1699, is identical): `No Data
Available` when `!data || !data.experienceLevels || !data.timePoints`. -/
def hiringPulseRender (data : Option TimeLineDataShape) (isLoading : Bool) :
    RenderState :=
  if isLoading then .skeleton
  else
    match data with
    | none => .noData
    | some d =>
      if d.experienceLevels = none ∨ d.timePoints = none then .noData
      else .chart

/-- The `RidgelineData` payload through JS truthiness. -/
structure RidgelineDataShape where
  jobTitles : Option (List String)
deriving DecidableEq, Repr

/-- The early returns of `SalaryJobTitleRidgeline` (lines 620-651): this
guard, alone among the three, also tests `data.jobTitles.length === 0`. -/
def ridgelineRender (data : Option RidgelineDataShape) (isLoading : Bool) :
    RenderState :=
  if isLoading then .skeleton
  else
    match data with
    | none => .noData
    | some d =>
      match d.jobTitles with
      | none => .noData
      | some ts => if ts.length = 0 then .noData else .chart

/-- A JS `Date`: a valid (year, month) pair as produced by
`new Date(year, monthIndex)`, or the Invalid Date the `Date` constructor
yields on unrecognized input. -/
inductive JsDate where
  | valid (year month : ℤ) : JsDate
  | invalid : JsDate
deriving DecidableEq, Repr

/-- `new Date(y, m)` where either argument may be `NaN` (`none`): any `NaN`
argument yields an Invalid Date. -/
def jsNewDateYM (year month : Option ℤ) : JsDate :=
  match year, month with
  | some y, some m => .valid y m
  | _, _ => .invalid

/-- Month names of the `"MMM dd"` weekly labels. -/
def monthNames : List String :=
  ["Jan", "Feb", "Mar", "Apr", "May", "Jun",
   "Jul", "Aug", "Sep", "Oct", "Nov", "Dec"]

/-- Modelled from JS `Date` semantics: `new Date(string)`. It recognizes
the `"MMM dd"` labels the weekly aggregation produces (JS resolves them in
year 2001) and yields an Invalid Date for anything else. Crucially the
constructor never throws: it is a total function into `JsDate`. -/
def jsNewDateString (s : String) : JsDate :=
  match splitOnChar ' ' s.data with
  | [mon, day] =>
    match monthNames.indexOf? (String.mk mon), parseDigits day with
    | some m, some _ => .valid 2001 (m : ℤ)
    | _, _ => .invalid
  | _ => .invalid

/-- The body of the `try` block around `new Date(dateString)`: by JS
semantics the constructor never throws, so the computation always succeeds
with the constructor's result (possibly an Invalid Date). -/
def tryNewDateString (s : String) : Except Unit JsDate :=
  Except.ok (jsNewDateString s)

/-- `parseDate` of the trend view (`HiringPulseChart`, part_001 lines
473-494; the identical helper appears in `JobPostingsTimeLine` at lines
1085-1106): `YYYY-MM` labels via `split("-")` and `Number`, `Q<n> <year>`
labels via `split(" ")` and `parseInt`, and otherwise
`try { return new Date(dateString) } catch { console.error(...);
return new Date() }` — `now` is the current date the catch branch would
substitute. -/
def parseDate (now : JsDate) (dateString : String) : JsDate :=
  if dateString.data.contains '-' then
    let parts := (splitOnChar '-' dateString.data).map
      (fun cs => (parseDigits cs).map (fun n => (n : ℤ)))
    jsNewDateYM (parts.getD 0 none) ((parts.getD 1 none).map (fun m => m - 1))
  else if dateString.data.contains 'Q' then
    let parts := splitOnChar ' ' dateString.data
    let quarterNum := parseDigits ((parts.getD 0 []).drop 1)
    let month := quarterNum.map (fun q => ((q : ℤ) - 1) * 3)
    jsNewDateYM ((parseDigits (parts.getD 1 [])).map (fun y => (y : ℤ))) month
  else
    match tryNewDateString dateString with
    | Except.ok d => d
    | Except.error _ => now

theorem lineClickFilters_experienceLevels (s : FilterOptions) (v : String) :
    (lineClickFilters s v).experienceLevels = toggleLabel s.experienceLevels v := by
  by_cases h : v ∈ s.experienceLevels <;> simp [lineClickFilters, toggleLabel, h]

theorem pointClickFilters_experienceLevels (s : FilterOptions) (v : String) :
    (pointClickFilters s v).experienceLevels = toggleLabel s.experienceLevels v := by
  by_cases h : v ∈ s.experienceLevels <;> simp [pointClickFilters, toggleLabel, h]

theorem legendClickFilters_experienceLevels (s : FilterOptions) (v : String) :
    (legendClickFilters s v).experienceLevels = toggleLabel s.experienceLevels v := by
  by_cases h : v ∈ s.experienceLevels <;> simp [legendClickFilters, toggleLabel, h]

theorem ridgelineClickFilters_industries (s : FilterOptions) (v : String) :
    (ridgelineClickFilters s v).industries = toggleLabel s.industries v := by
  by_cases h : v ∈ s.industries <;> simp [ridgelineClickFilters, toggleLabel, h]

theorem toggleIndustryFilters_industries (s : FilterOptions) (v : String) :
    (toggleIndustryFilters s v).industries = toggleLabel s.industries v := by
  by_cases h : v ∈ s.industries <;> simp [toggleIndustryFilters, toggleLabel, h]

theorem not_mem_toggleLabel_self (l : List String) (v : String) (h : v ∈ l) :
    v ∉ toggleLabel l v := by
  simp [toggleLabel, h, List.mem_filter]

theorem mem_toggleLabel_self (l : List String) (v : String) (h : v ∉ l) :
    v ∈ toggleLabel l v := by
  simp [toggleLabel, h]

theorem mem_toggleLabel_other (l : List String) (v x : String) (hx : x ≠ v) :
    x ∈ toggleLabel l v ↔ x ∈ l := by
  by_cases h : v ∈ l <;> simp [toggleLabel, h, List.mem_filter, hx]

theorem mem_toggleLabel_toggleLabel (l : List String) (v x : String) :
    x ∈ toggleLabel (toggleLabel l v) v ↔ x ∈ l := by
  by_cases hv : v ∈ l
  · have h1 : toggleLabel l v = l.filter (fun e => e ≠ v) := by simp [toggleLabel, hv]
    have h2 : v ∉ toggleLabel l v := not_mem_toggleLabel_self l v hv
    rw [toggleLabel, if_neg h2, h1]
    by_cases hx : x = v
    · subst hx; simp [hv]
    · simp [List.mem_filter, List.mem_append, hx]
  · have h1 : toggleLabel l v = l ++ [v] := by simp [toggleLabel, hv]
    have h2 : v ∈ toggleLabel l v := mem_toggleLabel_self l v hv
    rw [toggleLabel, if_pos h2, h1]
    rw [List.filter_append]
    have h3 : (l.filter (fun e => e ≠ v)) = l := by
      apply List.filter_eq_self.mpr
      intro a ha
      simp only [ne_eq, decide_eq_true_eq]
      exact fun hav => hv (hav ▸ ha)
    simp only [List.mem_filter, List.mem_append, List.mem_singleton, ne_eq,
      decide_eq_true_eq]
    constructor
    · rintro (⟨hx, _⟩ | ⟨hxv, hne⟩)
      · exact hx
      · exact absurd hxv hne
    · intro hx
      exact Or.inl ⟨hx, fun hxv => hv (hxv ▸ hx)⟩

/-- C1 counterexample. The claim quantifies over every chart and every
`FilterOptions` state, but the `HiringPulseChart` heatmap click handler
replaces the whole `experienceLevels` field instead of toggling one value:
starting from `["Entry-level", "Senior-level"]`, clicking the
`"Entry-level"` cell twice yields `["Entry-level"]`, so the membership of
`"Senior-level"` is not restored. -/
theorem C1_counterexample :
    ¬ (("Senior-level" ∈ (heatmapClickFilters (heatmapClickFilters
          ⟨["Entry-level", "Senior-level"], [], [], []⟩ "Entry-level")
          "Entry-level").experienceLevels)
       ↔ "Senior-level" ∈ (⟨["Entry-level", "Senior-level"], [], [], []⟩ :
          FilterOptions).experienceLevels) := by
  decide

/-- C1, amended: for the toggle-style click handlers (`JobPostingsTimeLine`
legend, line and data-point handlers), clicking the same category twice
restores the membership of every value of `experienceLevels`; for the
`HiringPulseChart` replace-style handlers only the membership of the
clicked value itself is restored, and other previously selected values may
be dropped. -/
theorem C1_toggle_twice_membership (s : FilterOptions) (v x : String) :
    ((x ∈ (legendClickFilters (legendClickFilters s v) v).experienceLevels ↔
        x ∈ s.experienceLevels)
      ∧ (x ∈ (lineClickFilters (lineClickFilters s v) v).experienceLevels ↔
        x ∈ s.experienceLevels)
      ∧ (x ∈ (pointClickFilters (pointClickFilters s v) v).experienceLevels ↔
        x ∈ s.experienceLevels))
    ∧ (v ∈ (heatmapClickFilters (heatmapClickFilters s v) v).experienceLevels ↔
        v ∈ s.experienceLevels) := by
  refine ⟨⟨?_, ?_, ?_⟩, ?_⟩
  · rw [legendClickFilters_experienceLevels, legendClickFilters_experienceLevels]
    exact mem_toggleLabel_toggleLabel _ v x
  · rw [lineClickFilters_experienceLevels, lineClickFilters_experienceLevels]
    exact mem_toggleLabel_toggleLabel _ v x
  · rw [pointClickFilters_experienceLevels, pointClickFilters_experienceLevels]
    exact mem_toggleLabel_toggleLabel _ v x
  · by_cases hv : v ∈ s.experienceLevels
    · simp [heatmapClickFilters, hv]
    · simp [heatmapClickFilters, hv]

/-- C2 counterexample. The claim quantifies over every chart, but the
`HiringPulseChart` heatmap click handler replaces `experienceLevels`
wholesale: with prior state `["Senior-level"]`, clicking `"Entry-level"`
drops `"Senior-level"`, so a value other than the clicked one changes. -/
theorem C2_counterexample :
    "Senior-level" ∈ (⟨["Senior-level"], [], [], []⟩ :
        FilterOptions).experienceLevels
    ∧ "Senior-level" ∉ (heatmapClickFilters ⟨["Senior-level"], [], [], []⟩
        "Entry-level").experienceLevels := by
  decide

/-- C2, amended: the toggle-style handlers (`JobPostingsTimeLine` line
click on `experienceLevels`, `SalaryJobTitleRidgeline` overlay click and
`SalaryLocationIndustryBarChart.toggleIndustry` on `industries`) add the
clicked value if absent, remove it if present, and change no other value of
that field; the `HiringPulseChart` handlers instead replace
`experienceLevels` by `[v]` or `[]`. -/
theorem C2_click_toggles_membership (s : FilterOptions) (v x : String) (hx : x ≠ v) :
    ((v ∈ s.experienceLevels → v ∉ (lineClickFilters s v).experienceLevels)
      ∧ (v ∉ s.experienceLevels → v ∈ (lineClickFilters s v).experienceLevels)
      ∧ (x ∈ (lineClickFilters s v).experienceLevels ↔ x ∈ s.experienceLevels))
    ∧ ((v ∈ s.industries → v ∉ (ridgelineClickFilters s v).industries)
      ∧ (v ∉ s.industries → v ∈ (ridgelineClickFilters s v).industries)
      ∧ (x ∈ (ridgelineClickFilters s v).industries ↔ x ∈ s.industries))
    ∧ ((v ∈ s.industries → v ∉ (toggleIndustryFilters s v).industries)
      ∧ (v ∉ s.industries → v ∈ (toggleIndustryFilters s v).industries)
      ∧ (x ∈ (toggleIndustryFilters s v).industries ↔ x ∈ s.industries))
    ∧ (heatmapClickFilters s v).experienceLevels
        = (if v ∈ s.experienceLevels then [] else [v]) := by
  refine ⟨⟨?_, ?_, ?_⟩, ⟨?_, ?_, ?_⟩, ⟨?_, ?_, ?_⟩, ?_⟩
  · intro hv
    rw [lineClickFilters_experienceLevels]
    exact not_mem_toggleLabel_self _ v hv
  · intro hv
    rw [lineClickFilters_experienceLevels]
    exact mem_toggleLabel_self _ v hv
  · rw [lineClickFilters_experienceLevels]
    exact mem_toggleLabel_other _ v x hx
  · intro hv
    rw [ridgelineClickFilters_industries]
    exact not_mem_toggleLabel_self _ v hv
  · intro hv
    rw [ridgelineClickFilters_industries]
    exact mem_toggleLabel_self _ v hv
  · rw [ridgelineClickFilters_industries]
    exact mem_toggleLabel_other _ v x hx
  · intro hv
    rw [toggleIndustryFilters_industries]
    exact not_mem_toggleLabel_self _ v hv
  · intro hv
    rw [toggleIndustryFilters_industries]
    exact mem_toggleLabel_self _ v hv
  · rw [toggleIndustryFilters_industries]
    exact mem_toggleLabel_other _ v x hx
  · by_cases hv : v ∈ s.experienceLevels
    · simp [heatmapClickFilters, hv]
    · simp [heatmapClickFilters, hv]

/-- C2 witness: the amended toggle contract evaluated at the concrete state
`experienceLevels = ["Senior-level"]`, clicked value `"Senior-level"`, other
value `"Entry-level"`. -/
theorem C2_click_toggles_membership_witness :
    ("Entry-level" ≠ "Senior-level")
    ∧ ("Entry-level" ∈ (lineClickFilters ⟨["Senior-level"], [], [], []⟩
          "Senior-level").experienceLevels
        ↔ "Entry-level" ∈ (⟨["Senior-level"], [], [], []⟩ :
          FilterOptions).experienceLevels) :=
  ⟨by decide,
   (C2_click_toggles_membership ⟨["Senior-level"], [], [], []⟩
      "Senior-level" "Entry-level" (by decide)).1.2.2⟩

/-- C10: every embedded filter-mutating click handler spreads the previous
snapshot before overwriting exactly one field, so the three fields other
than the one being changed keep their prior values. -/
theorem C10_frame_preservation (s : FilterOptions) (v : String) :
    ((heatmapClickFilters s v).locations = s.locations
      ∧ (heatmapClickFilters s v).industries = s.industries
      ∧ (heatmapClickFilters s v).employmentTypes = s.employmentTypes)
    ∧ ((lineClickFilters s v).locations = s.locations
      ∧ (lineClickFilters s v).industries = s.industries
      ∧ (lineClickFilters s v).employmentTypes = s.employmentTypes)
    ∧ ((pointClickFilters s v).locations = s.locations
      ∧ (pointClickFilters s v).industries = s.industries
      ∧ (pointClickFilters s v).employmentTypes = s.employmentTypes)
    ∧ ((legendClickFilters s v).locations = s.locations
      ∧ (legendClickFilters s v).industries = s.industries
      ∧ (legendClickFilters s v).employmentTypes = s.employmentTypes)
    ∧ ((ridgelineClickFilters s v).experienceLevels = s.experienceLevels
      ∧ (ridgelineClickFilters s v).locations = s.locations
      ∧ (ridgelineClickFilters s v).employmentTypes = s.employmentTypes)
    ∧ ((toggleIndustryFilters s v).experienceLevels = s.experienceLevels
      ∧ (toggleIndustryFilters s v).locations = s.locations
      ∧ (toggleIndustryFilters s v).employmentTypes = s.employmentTypes) := by
  refine ⟨⟨?_, ?_, ?_⟩, ⟨?_, ?_, ?_⟩, ⟨?_, ?_, ?_⟩, ⟨?_, ?_, ?_⟩,
    ⟨?_, ?_, ?_⟩, ⟨?_, ?_, ?_⟩⟩ <;>
  · first
    | (simp only [heatmapClickFilters]; split <;> rfl)
    | (simp only [lineClickFilters]; split <;> rfl)
    | (simp only [pointClickFilters]; split <;> rfl)
    | (simp only [legendClickFilters]; split <;> rfl)
    | (simp only [ridgelineClickFilters]; split <;> rfl)
    | (simp only [toggleIndustryFilters]; split <;> rfl)

/-- C3 counterexample. The claim says pointer-enter sets the shared
`ActiveItem` to the kind and value identifying the element's category in
every chart, but the `HiringPulseChart` heatmap-cell mouseover handler
never calls `setActiveItem`: hovering a cell leaves the active item null
instead of setting it to the cell's experience level (or industry). -/
theorem C3_counterexample :
    (heatmapCellMouseover ⟨⟨none, none⟩, ⟨"#1a2030", 1⟩, false⟩).activeItem
      = ⟨none, none⟩
    ∧ (⟨none, none⟩ : ActiveItem)
        ≠ ⟨some ActiveType.experienceLevel, some "Entry-level"⟩
    ∧ (⟨none, none⟩ : ActiveItem) ≠ ⟨some ActiveType.industry, some "Technology"⟩ := by
  refine ⟨rfl, by decide, by decide⟩

/-- C3, amended: the `HiringPulseChart` heatmap-cell hover handlers only
change the local stroke/tooltip state and never touch the shared active
item, while the `JobPostingsTimeLine` data-point handlers implement the
claimed contract: mouseover sets the active item to the point's experience
level, and mouseout resets it to null unless the point is in the persisted
selected state. -/
theorem C3_hover_active_item (st : HeatmapCellState) (pst : DataPointState)
    (level : String) :
    (heatmapCellMouseover st).activeItem = st.activeItem
    ∧ (heatmapCellMouseout st).activeItem = st.activeItem
    ∧ (heatmapCellMouseover st).style = ⟨"#ffffff", 2⟩
    ∧ (heatmapCellMouseout st).style = ⟨"#1a2030", 1⟩
    ∧ (pointMouseover level pst).activeItem
        = ⟨some ActiveType.experienceLevel, some level⟩
    ∧ (pointMouseover level pst).style = ⟨6, "#fff"⟩
    ∧ (pointMouseout pst).activeItem
        = (if pst.selected then pst.activeItem else ⟨none, none⟩)
    ∧ (pointMouseout pst).style = ⟨4, "#2d3748"⟩ := by
  refine ⟨rfl, rfl, rfl, rfl, rfl, rfl, ?_, rfl⟩
  by_cases h : pst.selected <;> simp [pointMouseout, h]

/-- C4 counterexample. `HiringPulseChart.getAggregatedData` draws a random
weight per (industry, experience level) pair, so two derivations from the
same raw payload disagree whenever the sampled weights differ: with a
single level totalling 10 jobs, a draw of `0` gives industry count
`round(10 * 0.5 / 5) = 1` while a draw of `49/50` gives
`round(10 * 0.99 / 5) = 2`. -/
theorem C4_counterexample :
    (getAggregatedDataHiring
        (some ⟨["E"], ["2023-01"], [("E", [("2023-01", 10)])]⟩)
        (fun _ => 0)).map HiringAggregated.byIndustry
    ≠ (getAggregatedDataHiring
        (some ⟨["E"], ["2023-01"], [("E", [("2023-01", 10)])]⟩)
        (fun _ => 49/50)).map HiringAggregated.byIndustry := by
  norm_num [getAggregatedDataHiring, entriesOf, lookupKey, hiringIndustries,
    jsRound, List.enum, List.enumFrom]

/-- C4, amended: the derived aggregates are a deterministic function of the
payload together with the sampled random weights. The experience-level
totals, the time series and the label lists do not depend on the weights at
all; only the simulated industry distribution (`byIndustry` and
`byExperienceAndIndustry`) varies between two derivations of equal input,
as the counterexample shows. -/
theorem C4_deterministic_components (data : Option TimeLineData) (r₁ r₂ : ℕ → ℚ) :
    (getAggregatedDataHiring data r₁).map HiringAggregated.byExperience
      = (getAggregatedDataHiring data r₂).map HiringAggregated.byExperience
    ∧ (getAggregatedDataHiring data r₁).map HiringAggregated.timeSeries
      = (getAggregatedDataHiring data r₂).map HiringAggregated.timeSeries
    ∧ (getAggregatedDataHiring data r₁).map HiringAggregated.experienceLevels
      = (getAggregatedDataHiring data r₂).map HiringAggregated.experienceLevels
    ∧ (getAggregatedDataHiring data r₁).map HiringAggregated.timePoints
      = (getAggregatedDataHiring data r₂).map HiringAggregated.timePoints := by
  cases data <;> simp [getAggregatedDataHiring]

theorem lookupKey_addToGroup (acc : List (String × ℚ × ℕ)) (k : String) (c : ℚ)
    (b : String) :
    lookupKey (addToGroup acc k c) b =
      if k = b then
        match lookupKey acc k with
        | some p => some (p.1 + c, p.2 + 1)
        | none => some (c, 1)
      else lookupKey acc b := by
  induction acc with
  | nil =>
    by_cases h : k = b <;> simp [addToGroup, lookupKey, h]
  | cons hd tl ih =>
    obtain ⟨k', s, n⟩ := hd
    by_cases hk : k' = k
    · subst hk
      by_cases hb : k' = b <;> simp [addToGroup, lookupKey, hb]
    · by_cases hb : k' = b
      · subst hb
        have hkb : ¬ (k = k') := fun h => hk h.symm
        simp [addToGroup, lookupKey, hk, hkb]
      · simp [addToGroup, lookupKey, hk, hb, ih]

theorem lookupKey_buildGroupsGo (key : String → String) (counts : String → ℚ)
    (ts : List String) :
    ∀ (acc : List (String × ℚ × ℕ)) (b : String),
    lookupKey (buildGroupsGo key counts acc ts) b
      = combineGroup (lookupKey acc b)
          (((ts.filter (fun t => key t = b)).map counts).sum)
          ((ts.filter (fun t => key t = b)).length) := by
  induction ts with
  | nil =>
    intro acc b
    simp only [buildGroupsGo, List.filter_nil, List.map_nil, List.sum_nil,
      List.length_nil]
    cases h : lookupKey acc b with
    | none => simp [combineGroup]
    | some p => simp [combineGroup]
  | cons t ts ih =>
    intro acc b
    by_cases hk : key t = b
    · subst hk
      simp only [buildGroupsGo]
      rw [ih, lookupKey_addToGroup, if_pos rfl]
      rw [List.filter_cons_of_pos (by simp)]
      simp only [List.map_cons, List.sum_cons, List.length_cons]
      cases h : lookupKey acc (key t) with
      | some p =>
        simp only [combineGroup, Option.some.injEq, Prod.mk.injEq]
        exact ⟨by ring, by omega⟩
      | none =>
        simp only [combineGroup, Nat.succ_ne_zero, if_neg (Nat.succ_ne_zero _),
          Option.some.injEq, Prod.mk.injEq]
        simp [Nat.add_comm]
    · simp only [buildGroupsGo]
      rw [ih, lookupKey_addToGroup, if_neg hk]
      rw [List.filter_cons_of_neg (by simpa using hk)]

theorem lookupKey_map_round (l : List (String × ℚ × ℕ)) (b : String) :
    lookupKey (l.map (fun g => (g.1, jsRound (g.2.1 / (g.2.2 : ℚ))))) b
      = (lookupKey l b).map (fun p => jsRound (p.1 / (p.2 : ℚ))) := by
  induction l with
  | nil => rfl
  | cons hd tl ih =>
    obtain ⟨k, p⟩ := hd
    by_cases hb : k = b <;> simp [lookupKey, hb, ih]

/-- C6: in the weekly/quarterly aggregation of `JobPostingsTimeLine`, the
value of every bucket (for any bucketing key function, hence for both
`getWeekOfYear` and `getQuarter`) is the rounded average of the
per-time-point counts falling into that bucket — the sum divided by the
number of contributing time points — not their sum. The second and third
conjuncts tie the concrete quarterly and weekly branches to this generic
grouping. -/
theorem C6_bucket_average (key : String → String) (counts : String → ℚ)
    (ts : List String) (b : String)
    (hb : (ts.filter (fun t => key t = b)).length ≠ 0) :
    lookupKey (aggregateBuckets key counts ts) b
      = some (jsRound (((ts.filter (fun t => key t = b)).map counts).sum
          / ((ts.filter (fun t => key t = b)).length : ℚ)))
    ∧ (∀ d level, quarterlyAggregate d level
        = aggregateBuckets getQuarter
            (fun t => (lookupKey (entriesOf d level) t).getD 0) d.timePoints)
    ∧ (∀ weekOf weekLabel d level, weeklyAggregate weekOf weekLabel d level
        = (aggregateBuckets weekOf
            (fun t => (lookupKey (entriesOf d level) t).getD 0) d.timePoints).map
          (fun p => (weekLabel p.1, p.2))) := by
  refine ⟨?_, fun d level => rfl, fun wo wl d level => ?_⟩
  · unfold aggregateBuckets buildGroups
    rw [lookupKey_map_round, lookupKey_buildGroupsGo]
    simp only [lookupKey, combineGroup, if_neg hb, Option.map_some']
  · simp [weeklyAggregate, aggregateBuckets, List.map_map, Function.comp]

/-- C6 witness: two time points in the same quarter with daily counts 4 and
6 yield the bucket value 5 (the rounded average), matching the spec's
`[4, 6] ↦ 5` example. -/
theorem C6_bucket_average_witness :
    ((["2023-01-01", "2023-01-08"].filter
        (fun t => getQuarter t = "Q1 2023")).length ≠ 0)
    ∧ lookupKey (aggregateBuckets getQuarter
          (fun t => if t = "2023-01-01" then (4 : ℚ) else 6)
          ["2023-01-01", "2023-01-08"]) "Q1 2023"
        = some (jsRound (((["2023-01-01", "2023-01-08"].filter
              (fun t => getQuarter t = "Q1 2023")).map
              (fun t => if t = "2023-01-01" then (4 : ℚ) else 6)).sum
            / ((["2023-01-01", "2023-01-08"].filter
              (fun t => getQuarter t = "Q1 2023")).length : ℚ)))
    ∧ jsRound (((4 : ℚ) + 6) / 2) = 5 :=
  ⟨by decide,
   (C6_bucket_average getQuarter
      (fun t => if t = "2023-01-01" then (4 : ℚ) else 6)
      ["2023-01-01", "2023-01-08"] "Q1 2023" (by decide)).1,
   by norm_num [jsRound]⟩

theorem jsOr_zero (a : ℚ) : jsOr a 0 = a := by
  by_cases h : a = 0 <;> simp [jsOr, h]

theorem getD_mem_of_lt {α : Type} (l : List α) (d : α) (i : ℕ) (h : i < l.length) :
    l.getD i d ∈ l := by
  rw [List.getD_eq_get l d h]
  exact List.get_mem l _ _

theorem sorted_getD_le (s : List ℚ) (hs : s.Sorted (· ≤ ·)) (i j : ℕ)
    (hij : i ≤ j) (hj : j < s.length) : s.getD i 0 ≤ s.getD j 0 := by
  have hi : i < s.length := lt_of_le_of_lt hij hj
  rw [List.getD_eq_get s 0 hi, List.getD_eq_get s 0 hj]
  exact hs.rel_get_of_le hij

theorem sorted_getD_zero_le (s : List ℚ) (hs : s.Sorted (· ≤ ·)) (v : ℚ)
    (hv : v ∈ s) : s.getD 0 0 ≤ v := by
  obtain ⟨⟨i, hi⟩, hgi⟩ := List.mem_iff_get.mp hv
  have h := sorted_getD_le s hs 0 i (Nat.zero_le i) hi
  rw [List.getD_eq_get s 0 hi, hgi] at h
  exact h

theorem sorted_le_getD_last (s : List ℚ) (hs : s.Sorted (· ≤ ·)) (v : ℚ)
    (hv : v ∈ s) : v ≤ s.getD (s.length - 1) 0 := by
  obtain ⟨⟨i, hi⟩, hgi⟩ := List.mem_iff_get.mp hv
  have h := sorted_getD_le s hs i (s.length - 1) (by omega) (by omega)
  rw [List.getD_eq_get s 0 hi, hgi] at h
  exact h

theorem quantileSorted_half (s : List ℚ) (h1 : 1 ≤ s.length) :
    quantileSorted s (1/2)
      = if s.length % 2 = 1 then s.getD (s.length / 2) 0
        else (s.getD (s.length / 2 - 1) 0 + s.getD (s.length / 2) 0) / 2 := by
  rcases Nat.lt_or_ge s.length 2 with h2 | h2
  · have hl : s.length = 1 := by omega
    simp [quantileSorted, hl]
  · have hne : ¬ (s.length = 0) := by omega
    have hcond : ¬ ((1:ℚ)/2 ≤ 0 ∨ s.length < 2) := by
      push_neg
      exact ⟨by norm_num, h2⟩
    have hcond1 : ¬ ((1:ℚ) ≤ 1/2) := by norm_num
    simp only [quantileSorted, if_neg hne, if_neg hcond, if_neg hcond1]
    rcases Nat.even_or_odd s.length with he | ho
    · obtain ⟨m, hm⟩ := he
      have hm1 : 1 ≤ m := by omega
      have hi : ((s.length : ℚ) - 1) * (1/2) = (m : ℚ) - 1/2 := by
        rw [hm]; push_cast; ring
      rw [hi]
      have hfl : ⌊(m : ℚ) - 1/2⌋ = (m : ℤ) - 1 := by
        rw [Int.floor_eq_iff]
        constructor
        · push_cast; linarith
        · push_cast; linarith
      rw [hfl]
      have htn : ((m : ℤ) - 1).toNat = m - 1 := by omega
      rw [htn]
      have e1 : m - 1 + 1 = m := by omega
      rw [e1]
      have e2 : ¬ (s.length % 2 = 1) := by omega
      rw [if_neg e2]
      have e3 : s.length / 2 = m := by omega
      rw [e3]
      have e5 : ((m - 1 : ℕ) : ℚ) = (m : ℚ) - 1 := by
        rw [Nat.cast_sub hm1]; norm_num
      rw [e5]
      ring
    · obtain ⟨m, hm⟩ := ho
      have hi : ((s.length : ℚ) - 1) * (1/2) = (m : ℚ) := by
        rw [hm]; push_cast; ring
      rw [hi, Int.floor_natCast, Int.toNat_natCast]
      have e2 : s.length % 2 = 1 := by omega
      rw [if_pos e2]
      have e3 : s.length / 2 = m := by omega
      rw [e3]
      ring

theorem jobTitleStats_median_eq (values : List ℚ) (hne : values ≠ [])
    (hpos : ∀ v ∈ values, 0 ≤ v) :
    (jobTitleStats values).median = medianSpec values := by
  suffices h : ∀ s : List ℚ, s.Sorted (· ≤ ·) → s.Perm values →
      jsOr (quantileSorted s (1/2)) (jsOr (s.getD 0 0) 0)
        = (if s.length % 2 = 1 then s.getD (s.length / 2) 0
           else (s.getD (s.length / 2 - 1) 0 + s.getD (s.length / 2) 0) / 2) by
    exact h (values.insertionSort (· ≤ ·)) (List.sorted_insertionSort _ _)
      (List.perm_insertionSort _ _)
  intro s hs hp
  have hlen1 : 1 ≤ s.length := by
    rw [hp.length_eq]
    cases values with
    | nil => exact absurd rfl hne
    | cons a l => simp
  have hposs : ∀ v ∈ s, 0 ≤ v := fun v hv => hpos v (hp.mem_iff.mp hv)
  rw [quantileSorted_half s hlen1]
  by_cases hodd : s.length % 2 = 1
  · simp only [if_pos hodd]
    by_cases hq : s.getD (s.length / 2) 0 = 0
    · have hle := sorted_getD_le s hs 0 (s.length / 2) (Nat.zero_le _) (by omega)
      rw [hq] at hle
      have hge := hposs _ (getD_mem_of_lt s 0 0 (by omega))
      have h0 : s.getD 0 0 = 0 := le_antisymm hle hge
      rw [hq, h0]
      simp [jsOr]
    · simp only [jsOr]
      rw [if_neg hq]
  · simp only [if_neg hodd]
    by_cases hq : (s.getD (s.length / 2 - 1) 0 + s.getD (s.length / 2) 0) / 2 = 0
    · have ha0 : 0 ≤ s.getD (s.length / 2 - 1) 0 :=
        hposs _ (getD_mem_of_lt s 0 _ (by omega))
      have hb0 : 0 ≤ s.getD (s.length / 2) 0 :=
        hposs _ (getD_mem_of_lt s 0 _ (by omega))
      have ha : s.getD (s.length / 2 - 1) 0 = 0 := by linarith
      have hle := sorted_getD_le s hs 0 (s.length / 2 - 1) (Nat.zero_le _) (by omega)
      rw [ha] at hle
      have hge := hposs _ (getD_mem_of_lt s 0 0 (by omega))
      have h0 : s.getD 0 0 = 0 := le_antisymm hle hge
      rw [hq, h0]
      simp [jsOr]
    · simp only [jsOr]
      rw [if_neg hq]

theorem jobTitleStats_singleton (v : ℚ) :
    (jobTitleStats [v]).median = v
    ∧ (jobTitleStats [v]).min = v * (9/10)
    ∧ (jobTitleStats [v]).max = v * (11/10) := by
  have hsort : ([v] : List ℚ).insertionSort (· ≤ ·) = [v] := by
    simp [List.insertionSort, List.orderedInsert]
  refine ⟨?_, ?_, ?_⟩ <;>
    by_cases hv : v = 0 <;>
    simp [jobTitleStats, hsort, quantileSorted, jsOr, hv]

theorem jobTitleStats_min_max (values : List ℚ) (h2 : 2 ≤ values.length) :
    ((jobTitleStats values).min ∈ values
      ∧ ∀ v ∈ values, (jobTitleStats values).min ≤ v)
    ∧ ((jobTitleStats values).max ∈ values
      ∧ ∀ v ∈ values, v ≤ (jobTitleStats values).max) := by
  have hs := List.sorted_insertionSort (· ≤ ·) values
  have hp := List.perm_insertionSort (· ≤ ·) values
  have hlen : (values.insertionSort (· ≤ ·)).length = values.length := hp.length_eq
  have hne1 : ¬ ((values.insertionSort (· ≤ ·)).length = 1) := by omega
  have hminproj : (jobTitleStats values).min
      = (values.insertionSort (· ≤ ·)).getD 0 0 := by
    simp only [jobTitleStats]
    rw [if_neg hne1, jsOr_zero]
  have hmaxproj : (jobTitleStats values).max
      = (values.insertionSort (· ≤ ·)).getD
          ((values.insertionSort (· ≤ ·)).length - 1) 0 := by
    simp only [jobTitleStats]
    rw [if_neg hne1, jsOr_zero]
  refine ⟨⟨?_, ?_⟩, ?_, ?_⟩
  · rw [hminproj]
    exact hp.mem_iff.mp (getD_mem_of_lt _ 0 0 (by omega))
  · intro v hv
    rw [hminproj]
    exact sorted_getD_zero_le _ hs v (hp.mem_iff.mpr hv)
  · rw [hmaxproj]
    exact hp.mem_iff.mp (getD_mem_of_lt _ 0 _ (by omega))
  · intro v hv
    rw [hmaxproj]
    exact sorted_le_getD_last _ hs v (hp.mem_iff.mpr hv)

theorem jobTitleStats_q_small (values : List ℚ) (hle : values.length ≤ 2) :
    (jobTitleStats values).q1
      = ((jobTitleStats values).min + (jobTitleStats values).median) / 2
    ∧ (jobTitleStats values).q3
      = ((jobTitleStats values).median + (jobTitleStats values).max) / 2 := by
  have hlen : (values.insertionSort (· ≤ ·)).length = values.length :=
    (List.perm_insertionSort _ _).length_eq
  have hn : ¬ (2 < (values.insertionSort (· ≤ ·)).length) := by omega
  constructor <;>
  · simp only [jobTitleStats]
    rw [if_neg hn]
    ring

/-- C5: the ridgeline statistics derivation sorts ascending and yields the
exact median (equal to the spec-side `medianSpec`), the exact min and max
for at least two observations, the synthesized `±10%` min/max for a single
observation, and — for at most 2 observations — quartiles that are the
midpoints of min/median and median/max rather than rank statistics. Values
are assumed nonnegative (salaries), which keeps the JS `|| 0` falsy
fallbacks inert. -/
theorem C5_ridgeline_stats (values : List ℚ) (hne : values ≠ [])
    (hpos : ∀ v ∈ values, 0 ≤ v) :
    (jobTitleStats values).median = medianSpec values
    ∧ (values.length = 1 →
        (jobTitleStats values).min = values.getD 0 0 * (9/10)
        ∧ (jobTitleStats values).max = values.getD 0 0 * (11/10))
    ∧ (2 ≤ values.length →
        ((jobTitleStats values).min ∈ values
          ∧ ∀ v ∈ values, (jobTitleStats values).min ≤ v)
        ∧ ((jobTitleStats values).max ∈ values
          ∧ ∀ v ∈ values, v ≤ (jobTitleStats values).max))
    ∧ (values.length ≤ 2 →
        (jobTitleStats values).q1
          = ((jobTitleStats values).min + (jobTitleStats values).median) / 2
        ∧ (jobTitleStats values).q3
          = ((jobTitleStats values).median + (jobTitleStats values).max) / 2) := by
  refine ⟨jobTitleStats_median_eq values hne hpos, ?_,
    fun h2 => jobTitleStats_min_max values h2,
    fun hle => jobTitleStats_q_small values hle⟩
  intro h1
  cases values with
  | nil => simp at h1
  | cons v vs =>
    have hvs : vs = [] := by
      simpa using h1
    subst hvs
    exact ⟨(jobTitleStats_singleton v).2.1, (jobTitleStats_singleton v).2.2⟩

/-- C5 witness: the spec's examples. For `[10, 20, 30]` the median is 20,
the min 10, the max 30; for the single value `[50]` the synthesized min and
max are 45 and 55. -/
theorem C5_ridgeline_stats_witness :
    (([10, 20, 30] : List ℚ) ≠ [] ∧ ∀ v ∈ ([10, 20, 30] : List ℚ), 0 ≤ v)
    ∧ (jobTitleStats [10, 20, 30]).median = medianSpec [10, 20, 30]
    ∧ medianSpec [10, 20, 30] = 20
    ∧ ((jobTitleStats [10, 20, 30]).min ∈ ([10, 20, 30] : List ℚ)
        ∧ ∀ v ∈ ([10, 20, 30] : List ℚ), (jobTitleStats [10, 20, 30]).min ≤ v)
    ∧ (jobTitleStats [50]).min = 45
    ∧ (jobTitleStats [50]).max = 55 := by
  refine ⟨⟨by decide, by decide⟩,
    (C5_ridgeline_stats [10, 20, 30] (by decide) (by decide)).1,
    by decide,
    ((C5_ridgeline_stats [10, 20, 30] (by decide) (by decide)).2.2.1 (by decide)).1,
    ?_, ?_⟩
  · have h := ((C5_ridgeline_stats [50] (by decide) (by decide)).2.1 (by decide)).1
    rw [h]
    norm_num
  · have h := ((C5_ridgeline_stats [50] (by decide) (by decide)).2.1 (by decide)).2
    rw [h]
    norm_num

/-- C7 counterexample. The claim promises a kernel density estimate at 100
evenly spaced thresholds for every category with at least two observations,
but for a degenerate range (all observed values equal) the step
`(max - min) / 100` is `0` and `d3.range` produces an empty threshold list:
`[50, 50]` has two observations yet yields a curve with no points. -/
theorem C7_counterexample :
    2 ≤ ([50, 50] : List ℚ).length ∧ densityCurve [50, 50] = some [] := by
  have hsort : ([50, 50] : List ℚ).insertionSort (· ≤ ·) = [50, 50] := by
    norm_num [List.insertionSort, List.orderedInsert]
  refine ⟨by norm_num, ?_⟩
  norm_num [densityCurve, jobTitleStats, hsort, jsOr, d3range, kde]

/-- C7, amended: categories with at most one observation are skipped, and
whenever the observed min is strictly below the observed max the curve is
the Epanechnikov kernel density estimate with bandwidth `(max - min) / 5`,
evaluated at exactly 100 evenly spaced thresholds `min + i * (max - min) /
100` for `i < 100`; when all observations are equal (min = max) the
threshold list is empty and no curve points are produced. -/
theorem C7_density (values : List ℚ) :
    (values.length ≤ 1 → densityCurve values = none)
    ∧ (2 ≤ values.length →
        (jobTitleStats values).min < (jobTitleStats values).max →
        densityCurve values
          = some ((List.range 100).map (fun (i : ℕ) =>
              ((jobTitleStats values).min
                 + (i : ℚ) * (((jobTitleStats values).max
                     - (jobTitleStats values).min) / 100),
               jsOr (jsMean (values.map (fun d =>
                 epanechnikov (((jobTitleStats values).max
                     - (jobTitleStats values).min) / 5)
                   ((jobTitleStats values).min
                     + (i : ℚ) * (((jobTitleStats values).max
                         - (jobTitleStats values).min) / 100) - d)))) 0)))) := by
  constructor
  · intro h
    simp [densityCurve, h]
  · intro h2 hlt
    have hn2 : ¬ (values.length ≤ 1) := by omega
    have hΔ : (jobTitleStats values).max - (jobTitleStats values).min ≠ 0 :=
      sub_ne_zero.mpr (ne_of_gt hlt)
    simp only [densityCurve, if_neg hn2, Option.some.injEq]
    have hvals : (jobTitleStats values).values = values := rfl
    rw [hvals]
    simp only [kde, d3range]
    have h100 : ((jobTitleStats values).max - (jobTitleStats values).min)
        / (((jobTitleStats values).max - (jobTitleStats values).min) / 100)
        = 100 := by
      field_simp
    rw [h100]
    have hnn : (max 0 ⌈(100 : ℚ)⌉).toNat = 100 := by
      have hc : ⌈(100 : ℚ)⌉ = 100 := by norm_num
      rw [hc]
      rfl
    rw [hnn, List.map_map]
    rfl

/-- C7 witness: for the two observations `[10, 20]` (min 10 < max 20) the
density curve exists and has exactly 100 sample points. -/
theorem C7_density_witness :
    2 ≤ ([10, 20] : List ℚ).length
    ∧ (jobTitleStats [10, 20]).min < (jobTitleStats [10, 20]).max
    ∧ (densityCurve [10, 20]).map List.length = some 100 := by
  refine ⟨by decide, by decide, ?_⟩
  rw [(C7_density [10, 20]).2 (by decide) (by decide)]
  rw [Option.map_some']
  simp only [List.length_map, List.length_range]

/-- C8 counterexample. The claim says a category list of length 0 renders
the `No Data Available` state, but the guards of
`SalaryLocationIndustryBarChart` and `HiringPulseChart` only test JS
truthiness (`!data.industries` etc.), and an empty array is truthy: with
`isLoading = false` and empty category lists, both charts proceed to the
main chart render. -/
theorem C8_counterexample :
    barChartRender (some ⟨some [], some []⟩) false = RenderState.chart
    ∧ hiringPulseRender (some ⟨some [], some []⟩) false = RenderState.chart
    ∧ RenderState.chart ≠ RenderState.noData := by
  exact ⟨rfl, rfl, by decide⟩

/-- C8, amended: with `isLoading = false`, the `No Data Available` state is
rendered exactly when the payload itself or a required array field is
`undefined`; a present-but-empty category list does not trigger it in
`SalaryLocationIndustryBarChart` and `HiringPulseChart`. Only
`SalaryJobTitleRidgeline` additionally treats an empty `jobTitles` list as
no-data. While loading, every chart renders the skeleton instead. -/
theorem C8_no_data_guards (bar : GroupedBarDataShape) (tl : TimeLineDataShape)
    (rd : RidgelineDataShape) :
    (barChartRender none false = RenderState.noData
      ∧ hiringPulseRender none false = RenderState.noData
      ∧ ridgelineRender none false = RenderState.noData)
    ∧ (barChartRender (some bar) false = RenderState.noData
        ↔ bar.industries = none)
    ∧ (hiringPulseRender (some tl) false = RenderState.noData
        ↔ tl.experienceLevels = none ∨ tl.timePoints = none)
    ∧ (ridgelineRender (some rd) false = RenderState.noData
        ↔ rd.jobTitles = none ∨ rd.jobTitles = some [])
    ∧ (barChartRender (some bar) true = RenderState.skeleton
      ∧ hiringPulseRender (some tl) true = RenderState.skeleton
      ∧ ridgelineRender (some rd) true = RenderState.skeleton) := by
  refine ⟨⟨rfl, rfl, rfl⟩, ?_, ?_, ?_, rfl, rfl, rfl⟩
  · obtain ⟨loc, ind⟩ := bar
    cases ind <;> simp [barChartRender]
  · obtain ⟨exp, tp⟩ := tl
    cases exp <;> cases tp <;> simp [hiringPulseRender]
  · obtain ⟨jt⟩ := rd
    cases jt with
    | none => simp [ridgelineRender]
    | some ts =>
      cases ts with
      | nil => simp [ridgelineRender]
      | cons a l => simp [ridgelineRender]

/-- C9 (code bug, dead fallback): JS `new Date(string)` never throws on a
malformed label — it returns an Invalid Date — so the `catch` branch of
`parseDate` that logs a diagnostic and substitutes the current date is
unreachable. For the unparseable label `"garbage"` the function returns
the Invalid Date, never the current date `now`, and rendering proceeds
with NaN coordinates; a well-formed weekly label is passed through to the
constructor's result. -/
theorem C9_parse_fallback_dead (now : JsDate) :
    parseDate now "garbage" = JsDate.invalid
    ∧ parseDate now "garbage" = jsNewDateString "garbage"
    ∧ (∀ y m, JsDate.invalid ≠ JsDate.valid y m)
    ∧ parseDate now "Mar 05" = JsDate.valid 2001 2 := by
  exact ⟨rfl, rfl, fun y m h => JsDate.noConfusion h, rfl⟩
